import Mathlib

/-!
Shallow embedding of `src/utils/calculators/rules.js`: the Qantas
points/status-credits rule-evaluation engine (DistanceRule,
IntraCountryRule, FareClassRule, GeographicalRule) and the
`parseEarningRates` utility.

JavaScript objects used as string-keyed maps are embedded as association
lists with first-match lookup (JS object keys are unique; insertion
overwrites). JS `Set`s are embedded as lists with membership, iterated in
insertion order. JS numbers that carry distances are embedded as `Rat`
(the code only compares and prints them). External collaborators that the
module imports (`calcDistance`, `isInRegion`, `REGION_DISPLAY`) are
parameters of an `Env` record, exactly the interface the module consumes.
-/

namespace QantasCalc

/-- Association-list lookup: first pair whose key equals `k` (JS object
property read; keys are unique in a JS object). -/
def alookup {α : Type} : List (String × α) → String → Option α
  | [], _ => none
  | (k2, v) :: rest, k => if k2 = k then some v else alookup rest k

/-- Airport record as read by the rules: `iata`, `city`, `country`.
(The `coordinates` field is consumed only by the external `calcDistance`
collaborator, which is a parameter here, so it is not represented.) -/
structure Airport where
  iata : String
  city : String
  country : String
deriving DecidableEq, Repr

/-- A flight segment: the only fields this module reads. -/
structure Segment where
  fromAirport : Airport
  toAirport : Airport
deriving DecidableEq, Repr

/-- `QantasEarnings` value: a (points, credits) pair. -/
structure QantasEarnings where
  qantasPoints : Int
  statusCredits : Int
deriving DecidableEq, Repr

/-- One distance band: exclusive `minDistance`, optional inclusive
`maxDistance` (absent = unbounded above), and an earnings object keyed by
fare-earn category. -/
structure DistanceBand where
  minDistance : Rat
  maxDistance : Option Rat
  earnings : List (String × QantasEarnings)
deriving DecidableEq

/-- The value produced by `buildCalculationReturn`. -/
structure CalculationResult where
  rule : String
  ruleUrl : String
  fareEarnCategory : String
  notes : String
  qantasPoints : Int
  statusCredits : Int
deriving DecidableEq, Repr

/-- Outcome of a `calculate` call: a result, a thrown `Error` with its
message, or a JS `TypeError` (property read on `undefined`/`null`). -/
inductive CalcOutcome
  | ok (r : CalculationResult)
  | error (msg : String)
  | typeError
deriving DecidableEq, Repr

/-- External collaborators consumed by the module: great-circle distance,
region membership, and the `REGION_DISPLAY` lookup table. -/
structure Env where
  calcDistance : Airport → Airport → Rat
  isInRegion : String → String → Bool
  regionDisplay : List (String × String)

/-- The predicate tested inside `DistanceRule._getDistanceBand`:
`distanceBand.minDistance < distance && (!('maxDistance' in distanceBand)
|| distance <= distanceBand.maxDistance)`. -/
def bandMatches (b : DistanceBand) (distance : Rat) : Bool :=
  decide (b.minDistance < distance) &&
    (match b.maxDistance with
     | none => true
     | some m => decide (distance ≤ m))

/-- `DistanceRule._getDistanceBand`: `this.distanceBands.find(...)`. -/
def getDistanceBand (distanceBands : List DistanceBand) (distance : Rat) :
    Option DistanceBand :=
  distanceBands.find? (fun b => bandMatches b distance)

namespace DistanceRule

/-- `DistanceRule.applies`: compute the distance, find a band, and test
that the requested category is a key of the band's earnings object. -/
def applies (env : Env) (distanceBands : List DistanceBand)
    (segment : Segment) (fareEarnCategory : String) : Bool :=
  let distance := env.calcDistance segment.fromAirport segment.toAirport
  match getDistanceBand distanceBands distance with
  | none => false
  | some distanceBand => (alookup distanceBand.earnings fareEarnCategory).isSome

/-- `DistanceRule.calculate`: recompute distance and band; throw when no
band is found; otherwise build notes and return the band's per-category
earnings. Reading a missing category from `earnings` is a TypeError. -/
def calculate (env : Env) (name ruleUrl : String)
    (distanceBands : List DistanceBand) (segment : Segment)
    (fareEarnCategory : String) : CalcOutcome :=
  let distance := env.calcDistance segment.fromAirport segment.toAirport
  match getDistanceBand distanceBands distance with
  | none =>
      .error ("No applicable distance band to calculate with for rule: " ++ name)
  | some distanceBand =>
      let notesForDistance :=
        match distanceBand.maxDistance with
        | some m =>
            "using band " ++ toString distanceBand.minDistance ++ " - " ++ toString m
        | none => "using band " ++ toString distanceBand.minDistance ++ " and over"
      match alookup distanceBand.earnings fareEarnCategory with
      | none => .typeError
      | some e =>
          .ok { rule := name, ruleUrl := ruleUrl,
                fareEarnCategory := fareEarnCategory,
                notes := "Distance calculated to " ++ toString distance ++
                  " miles, " ++ notesForDistance,
                qantasPoints := e.qantasPoints,
                statusCredits := e.statusCredits }

end DistanceRule

namespace IntraCountryRule

/-- `IntraCountryRule.applies`: false when either endpoint's `country`
differs (strict `!==` comparison) from the configured country, else defer
to the wrapped `DistanceRule`. -/
def applies (env : Env) (country : String) (distanceBands : List DistanceBand)
    (segment : Segment) (fareEarnCategory : String) : Bool :=
  if segment.fromAirport.country ≠ country ∨
      segment.toAirport.country ≠ country then
    false
  else
    DistanceRule.applies env distanceBands segment fareEarnCategory

/-- `IntraCountryRule.calculate`: defers to the wrapped `DistanceRule`
without re-checking the country. -/
def calculate (env : Env) (name ruleUrl : String)
    (distanceBands : List DistanceBand) (segment : Segment)
    (fareEarnCategory : String) : CalcOutcome :=
  DistanceRule.calculate env name ruleUrl distanceBands segment fareEarnCategory

end IntraCountryRule

/-- Per-fare-class entry of a `FareClassRule` table. -/
structure FareClassEarning where
  calculationNotes : String
  qantasPoints : Int
  statusCredits : Int
deriving DecidableEq, Repr

namespace FareClassRule

/-- `FareClassRule.applies`: `fareEarnCategory in this.fareClassEarnings`;
the segment is never inspected. -/
def applies (fareClassEarnings : List (String × FareClassEarning))
    (fareEarnCategory : String) : Bool :=
  (alookup fareClassEarnings fareEarnCategory).isSome

/-- `FareClassRule.calculate`: return the pre-authored notes and earnings;
reading a missing category is a TypeError. -/
def calculate (name ruleUrl : String)
    (fareClassEarnings : List (String × FareClassEarning))
    (fareEarnCategory : String) : CalcOutcome :=
  match alookup fareClassEarnings fareEarnCategory with
  | none => .typeError
  | some e =>
      .ok { rule := name, ruleUrl := ruleUrl,
            fareEarnCategory := fareEarnCategory,
            notes := e.calculationNotes,
            qantasPoints := e.qantasPoints,
            statusCredits := e.statusCredits }

end FareClassRule

/-- JavaScript `String.prototype.toLowerCase` as the rules use it (the
data is ASCII): each character in `A`–`Z` is shifted to its lower-case
counterpart. -/
def jsCharLower (c : Char) : Char :=
  if 'A' ≤ c ∧ c ≤ 'Z' then Char.ofNat (c.toNat + 32) else c

/-- Lower-case every character of a string. -/
def jsToLower (s : String) : String :=
  String.mk (s.data.map jsCharLower)

/-- A resolved location: the `{ type, value }` objects returned by
`_getOrigin` / `_getDestination` (the `type` field is a plain string in
the source). -/
structure Location where
  type : String
  value : String
deriving DecidableEq, Repr

/-- The `origin` half of a `GeographicalRule` config: optional membership
sets (JS `Set`, embedded as a list iterated in insertion order). -/
structure OriginConfig where
  city : Option (List String)
  country : Option (List String)
  region : Option (List String)
deriving DecidableEq

/-- The `destination` half of a `GeographicalRule` config: optional lookup
tables keyed by the matched value, each entry an earnings object keyed by
fare-earn category. -/
structure DestinationConfig where
  city : Option (List (String × List (String × QantasEarnings)))
  country : Option (List (String × List (String × QantasEarnings)))
  region : Option (List (String × List (String × QantasEarnings)))
deriving DecidableEq

/-- A `GeographicalRule`'s `ruleConfig`. -/
structure RuleConfig where
  origin : OriginConfig
  destination : DestinationConfig
deriving DecidableEq

/-- The dynamic property read `this.ruleConfig.destination[type]`:
defined only for the three field names, `none` (JS `undefined`) for the
absent field or any other name. -/
def destTable (cfg : RuleConfig) (type : String) :
    Option (List (String × List (String × QantasEarnings))) :=
  if type = "city" then cfg.destination.city
  else if type = "country" then cfg.destination.country
  else if type = "region" then cfg.destination.region
  else none

namespace GeographicalRule

/-- `GeographicalRule._getOrigin`: test city, then country (both
case-insensitively, lower-casing the airport field), then scan the region
set with `isInRegion` on the lower-cased IATA code. -/
def getOrigin (env : Env) (cfg : RuleConfig) (airport : Airport) :
    Option Location :=
  if (match cfg.origin.city with
      | some citySet => decide (jsToLower airport.city ∈ citySet)
      | none => false : Bool) then
    some { type := "city", value := jsToLower airport.city }
  else if (match cfg.origin.country with
      | some countrySet => decide (jsToLower airport.country ∈ countrySet)
      | none => false : Bool) then
    some { type := "country", value := jsToLower airport.country }
  else
    match cfg.origin.region with
    | some regionSet =>
        (regionSet.find? (fun region =>
            env.isInRegion (jsToLower airport.iata) region)).map
          (fun region => { type := "region", value := region })
    | none => none

/-- `GeographicalRule._getDestination`: same priority order, but each side
is a key-presence test on a lookup table; the region loop iterates
`Object.keys` of the region table. -/
def getDestination (env : Env) (cfg : RuleConfig) (airport : Airport) :
    Option Location :=
  if (match cfg.destination.city with
      | some cityTable => (alookup cityTable (jsToLower airport.city)).isSome
      | none => false : Bool) then
    some { type := "city", value := jsToLower airport.city }
  else if (match cfg.destination.country with
      | some countryTable =>
          (alookup countryTable (jsToLower airport.country)).isSome
      | none => false : Bool) then
    some { type := "country", value := jsToLower airport.country }
  else
    match cfg.destination.region with
    | some regionTable =>
        ((regionTable.map Prod.fst).find? (fun region =>
            env.isInRegion (jsToLower airport.iata) region)).map
          (fun region => { type := "region", value := region })
    | none => none

/-- `GeographicalRule._getOriginAndDestination`: try
`(origin = from, destination = to)` first; when either side fails,
retry with the swapped pair. -/
def getOriginAndDestination (env : Env) (cfg : RuleConfig)
    (segment : Segment) : Option Location × Option Location :=
  let origin := getOrigin env cfg segment.fromAirport
  let destination := getDestination env cfg segment.toAirport
  if origin.isNone ∨ destination.isNone then
    (getOrigin env cfg segment.toAirport,
     getDestination env cfg segment.fromAirport)
  else
    (origin, destination)

/-- JS `a || b` on strings: `b` when `a` is `undefined` or the empty
string (the only falsy string). -/
def jsStrOr (a : Option String) (b : String) : String :=
  match a with
  | some s => if s = "" then b else s
  | none => b

/-- The inner renderer of `_buildCalculationNotes`: renders one location,
throwing (with the source's spelling) on an unknown `type`. -/
def buildCalculationNotesInner (env : Env) (location : Location) :
    Except String String :=
  if location.type = "airport" then .ok (location.value ++ " airport")
  else if location.type = "city" then .ok location.value
  else if location.type = "country" then .ok location.value
  else if location.type = "region" then
    .ok (jsStrOr (alookup env.regionDisplay location.value) location.value)
  else
    .error ("Cannot create calcluation notes for unknown type " ++ location.type)

/-- `GeographicalRule._buildCalculationNotes`: origin rendering, then
`" to "`, then destination rendering (origin rendered first, so its error
surfaces first). -/
def buildCalculationNotes (env : Env) (origin destination : Location) :
    Except String String :=
  match buildCalculationNotesInner env origin with
  | .error e => .error e
  | .ok o =>
      match buildCalculationNotesInner env destination with
      | .error e => .error e
      | .ok d => .ok (o ++ " to " ++ d)

/-- `GeographicalRule.applies`, instrumented: `none` marks the places
where the source would throw a TypeError (property reads through
`undefined`); `some b` is the returned boolean. -/
def appliesChecked (env : Env) (cfg : RuleConfig) (segment : Segment)
    (fareEarnCategory : String) : Option Bool :=
  match getOriginAndDestination env cfg segment with
  | (some _, some destination) =>
      match destTable cfg destination.type with
      | none => none
      | some table =>
          match alookup table destination.value with
          | none => none
          | some earnings =>
              some (alookup earnings fareEarnCategory).isSome
  | (_, _) => some false

/-- `GeographicalRule.applies` on the source's happy path (the theorem for
the safety claim shows `appliesChecked` never hits a TypeError). -/
def applies (env : Env) (cfg : RuleConfig) (segment : Segment)
    (fareEarnCategory : String) : Bool :=
  (appliesChecked env cfg segment fareEarnCategory).getD false

/-- `GeographicalRule.calculate`: re-resolve, read the earnings entry
(line order of the source: the destination lookup happens first, the notes
are built before the per-category earnings fields are read). -/
def calculate (env : Env) (name ruleUrl : String) (cfg : RuleConfig)
    (segment : Segment) (fareEarnCategory : String) : CalcOutcome :=
  match getOriginAndDestination env cfg segment with
  | (origin1, some destination) =>
      match destTable cfg destination.type with
      | none => .typeError
      | some table =>
          let earnings1 := alookup table destination.value
          match origin1 with
          | none => .typeError
          | some origin =>
              match buildCalculationNotes env origin destination with
              | .error msg => .error msg
              | .ok notes =>
                  match earnings1 with
                  | none => .typeError
                  | some earnings =>
                      match alookup earnings fareEarnCategory with
                      | none => .typeError
                      | some e =>
                          .ok { rule := name, ruleUrl := ruleUrl,
                                fareEarnCategory := fareEarnCategory,
                                notes := notes,
                                qantasPoints := e.qantasPoints,
                                statusCredits := e.statusCredits }
  | (_, none) => .typeError

end GeographicalRule

/-- The four rule variants, each carrying its configuration (the
`IntraCountryRule` constructor builds its inner `DistanceRule` from the
same name, URL and band list, as the source constructor does). -/
inductive Rule
  | distance (name ruleUrl : String) (distanceBands : List DistanceBand)
  | intraCountry (name ruleUrl country : String)
      (distanceBands : List DistanceBand)
  | fareClass (name ruleUrl : String)
      (fareClassEarnings : List (String × FareClassEarning))
  | geographical (name ruleUrl : String) (ruleConfig : RuleConfig)

/-- Polymorphic `applies` dispatch over the rule variants. -/
def Rule.applies (env : Env) (rule : Rule) (segment : Segment)
    (fareEarnCategory : String) : Bool :=
  match rule with
  | .distance _ _ bands => DistanceRule.applies env bands segment fareEarnCategory
  | .intraCountry _ _ country bands =>
      IntraCountryRule.applies env country bands segment fareEarnCategory
  | .fareClass _ _ table => FareClassRule.applies table fareEarnCategory
  | .geographical _ _ cfg =>
      GeographicalRule.applies env cfg segment fareEarnCategory

/-- `applies` dispatch with every property read through a possibly-absent
value made explicit: `none` marks a would-be TypeError. The first three
variants read only fields that always exist, so only `GeographicalRule`
has instrumented reads. -/
def Rule.appliesChecked (env : Env) (rule : Rule) (segment : Segment)
    (fareEarnCategory : String) : Option Bool :=
  match rule with
  | .distance _ _ bands =>
      some (DistanceRule.applies env bands segment fareEarnCategory)
  | .intraCountry _ _ country bands =>
      some (IntraCountryRule.applies env country bands segment fareEarnCategory)
  | .fareClass _ _ table => some (FareClassRule.applies table fareEarnCategory)
  | .geographical _ _ cfg =>
      GeographicalRule.appliesChecked env cfg segment fareEarnCategory

/-- Whitespace as matched by the `\s` class / `trim` on this data. -/
def isJsWs (c : Char) : Bool :=
  c = ' ' ∨ c = '\t' ∨ c = '\n' ∨ c = '\x0d' ∨ c = '\x0b' ∨ c = '\x0c'

/-- JS `String.prototype.trim`: drop whitespace from both ends. -/
def jsTrim (cs : List Char) : List Char :=
  ((cs.dropWhile isJsWs).reverse.dropWhile isJsWs).reverse

/-- `replace(/\,/gm, '')`: delete every comma. -/
def removeCommas (cs : List Char) : List Char :=
  cs.filter (fun c => c ≠ ',')

/-- `replace(/\s+/gm, ' ')`: each maximal whitespace run becomes one
space; `prevWs` records whether the previous character was whitespace. -/
def collapseWsAux (prevWs : Bool) : List Char → List Char
  | [] => []
  | c :: rest =>
      if isJsWs c then
        if prevWs then collapseWsAux true rest
        else ' ' :: collapseWsAux true rest
      else c :: collapseWsAux false rest

/-- `split(' ')`: split on every single space, keeping empty pieces. -/
def splitSpaceAux (cur : List Char) : List Char → List (List Char)
  | [] => [cur.reverse]
  | c :: rest =>
      if c = ' ' then cur.reverse :: splitSpaceAux [] rest
      else splitSpaceAux (c :: cur) rest

/-- The points-string pipeline:
`.trim().replace(/\,/gm, '').replace(/\s+/gm, ' ').split(' ')`. -/
def pointsTokens (s : String) : List String :=
  (splitSpaceAux [] (collapseWsAux false (removeCommas (jsTrim s.data)))).map
    String.mk

/-- The credits-string pipeline:
`.trim().replace(/\s+/gm, ' ').split(' ')` (commas are kept). -/
def creditsTokens (s : String) : List String :=
  (splitSpaceAux [] (collapseWsAux false (jsTrim s.data))).map String.mk

/-- Value of a hexadecimal digit character, `none` otherwise. -/
def hexVal (c : Char) : Option Nat :=
  if '0' ≤ c ∧ c ≤ '9' then some (c.toNat - 48)
  else if 'a' ≤ c ∧ c ≤ 'f' then some (c.toNat - 87)
  else if 'A' ≤ c ∧ c ≤ 'F' then some (c.toNat - 55)
  else none

/-- Value of a digit character in the given radix (10 or 16 here). -/
def digitVal (base : Nat) (c : Char) : Option Nat :=
  match hexVal c with
  | some v => if v < base then some v else none
  | none => none

/-- Longest leading run of radix-`base` digits, as a number; `none` (JS
`NaN`) when there is no leading digit. -/
def parseRadix (base : Nat) (cs : List Char) : Option Nat :=
  let ds := cs.takeWhile (fun c => (digitVal base c).isSome)
  if ds.isEmpty then none
  else some (ds.foldl (fun acc c => acc * base + (digitVal base c).getD 0) 0)

/-- Unsigned part of JS `parseInt` with no radix argument: a `0x`/`0X`
prefix selects base 16, otherwise base 10. -/
def parseUnsigned (cs : List Char) : Option Nat :=
  match cs with
  | c0 :: c1 :: rest =>
      if c0 = '0' ∧ (c1 = 'x' ∨ c1 = 'X') then parseRadix 16 rest
      else parseRadix 10 (c0 :: c1 :: rest)
  | _ => parseRadix 10 cs

/-- JS `parseInt(s)` (radix unspecified): skip leading whitespace, read an
optional sign, then the longest digit run in the detected radix; `none`
is `NaN`. -/
def jsParseInt (s : String) : Option Int :=
  match s.data.dropWhile isJsWs with
  | [] => none
  | c :: rest =>
      if c = '-' then (parseUnsigned rest).map (fun n => -(n : Int))
      else if c = '+' then (parseUnsigned rest).map (fun n => (n : Int))
      else (parseUnsigned (c :: rest)).map (fun n => (n : Int))

/-- `parseInt(tokens[index]) || 0`: an out-of-range index reads
`undefined` (which parses to `NaN`), and `NaN || 0` and `0 || 0` are both
`0`. -/
def tokenValue (token : Option String) : Int :=
  match token with
  | none => 0
  | some t => (jsParseInt t).getD 0

/-- JS object property assignment on the association-list embedding:
overwrite an existing key in place, else append. -/
def objSet (l : List (String × QantasEarnings)) (k : String)
    (v : QantasEarnings) : List (String × QantasEarnings) :=
  match l with
  | [] => [(k, v)]
  | (k2, v2) :: rest =>
      if k2 = k then (k, v) :: rest else (k2, v2) :: objSet rest k v

/-- The `fareClasses.forEach((fareClass, index) => ...)` loop: assign
`retval[fareClass] = new QantasEarnings(parseInt(points[index]) || 0,
parseInt(credits[index]) || 0)` for each label in order. -/
def buildRates (pts cds : List String) :
    List String → Nat → List (String × QantasEarnings) →
      List (String × QantasEarnings)
  | [], _, retval => retval
  | fareClass :: rest, index, retval =>
      buildRates pts cds rest (index + 1)
        (objSet retval fareClass
          { qantasPoints := tokenValue (pts.get? index),
            statusCredits := tokenValue (cds.get? index) })

/-- `parseEarningRates`: tokenize the two strings (commas stripped from
the points string only) and map token position `i` to fare-class label
`i`. -/
def parseEarningRates (qantasPointsString qantasCreditsString : String)
    (fareClasses : List String) : List (String × QantasEarnings) :=
  buildRates (pointsTokens qantasPointsString)
    (creditsTokens qantasCreditsString) fareClasses 0 []

/-! Helper lemmas shared by the claim theorems. -/

theorem bandMatches_iff (b : DistanceBand) (d : Rat) :
    bandMatches b d = true ↔ b.minDistance < d ∧ ∀ m ∈ b.maxDistance, d ≤ m := by
  unfold bandMatches
  cases h : b.maxDistance <;> simp [h]

theorem getDistanceBand_sound (bands : List DistanceBand) (d : Rat)
    (b : DistanceBand) (h : getDistanceBand bands d = some b) :
    b ∈ bands ∧ bandMatches b d = true := by
  unfold getDistanceBand at h
  exact ⟨List.mem_of_find?_eq_some h, by simpa using List.find?_some h⟩

theorem getDistanceBand_first (d : Rat) (pre post : List DistanceBand)
    (b : DistanceBand) (hpre : ∀ b2 ∈ pre, bandMatches b2 d = false)
    (hb : bandMatches b d = true) :
    getDistanceBand (pre ++ b :: post) d = some b := by
  induction pre with
  | nil => simp [getDistanceBand, List.find?_cons, hb]
  | cons hd tl ih =>
      have hhd : bandMatches hd d = false := hpre hd (by simp)
      have := ih (fun b2 h2 => hpre b2 (by simp [h2]))
      simpa [getDistanceBand, List.find?_cons, hhd] using this

theorem getDistanceBand_none (bands : List DistanceBand) (d : Rat)
    (h : ∀ b2 ∈ bands, bandMatches b2 d = false) :
    getDistanceBand bands d = none := by
  unfold getDistanceBand
  exact List.find?_eq_none.mpr (by simpa using h)

end QantasCalc

namespace QantasCalc

/-- C1: `_getDistanceBand(d)` returns the first band in declaration order
with `minDistance < d` and (`maxDistance` absent or `d ≤ maxDistance`);
`d = maxDistance` matches the band, `d = minDistance` does not, and when
no band satisfies the condition the result is `undefined` (`none`). -/
theorem c1_getDistanceBand_first_match
    (d : Rat) (bands pre post : List DistanceBand) (b bm : DistanceBand) :
    (getDistanceBand bands d = some b →
       b ∈ bands ∧ b.minDistance < d ∧ ∀ m ∈ b.maxDistance, d ≤ m)
  ∧ (bands = pre ++ b :: post → bandMatches b d = true →
       (∀ b2 ∈ pre, bandMatches b2 d = false) →
       getDistanceBand bands d = some b)
  ∧ ((∀ b2 ∈ bands, bandMatches b2 d = false) → getDistanceBand bands d = none)
  ∧ (bm.maxDistance = some d → bm.minDistance < d → bandMatches bm d = true)
  ∧ (bandMatches bm bm.minDistance = false) := by
  refine ⟨fun h => ?_, fun hb hm hpre => ?_, getDistanceBand_none bands d,
    fun hmax hmin => ?_, ?_⟩
  · obtain ⟨hmem, hmatch⟩ := getDistanceBand_sound bands d b h
    exact ⟨hmem, (bandMatches_iff b d).mp hmatch⟩
  · subst hb; exact getDistanceBand_first d pre post b hpre hm
  · exact (bandMatches_iff bm d).mpr ⟨hmin, by simp [hmax]⟩
  · rw [Bool.eq_false_iff]
    intro hcontra
    exact absurd ((bandMatches_iff bm bm.minDistance).mp hcontra).1 (lt_irrefl _)

/-- Fixture band: (0, 750] on category Y. -/
def bandA : DistanceBand :=
  { minDistance := 0, maxDistance := some 750,
    earnings := [("Y", { qantasPoints := 100, statusCredits := 10 })] }

/-- Fixture band: (750, ∞) on category Y. -/
def bandB : DistanceBand :=
  { minDistance := 750, maxDistance := none,
    earnings := [("Y", { qantasPoints := 200, statusCredits := 20 })] }

/-- Witness for C1 at concrete inputs: at `d = 800` the first (and only)
matching band of `[bandA, bandB]` is `bandB`; at `d = 750` the bounded
band still matches (inclusive upper bound) while `bandB` with
`minDistance = 750` does not (exclusive lower bound). -/
theorem c1_getDistanceBand_first_match_witness :
    getDistanceBand [bandA, bandB] (800 : Rat) = some bandB
  ∧ bandMatches bandA (750 : Rat) = true
  ∧ bandMatches bandB (750 : Rat) = false := by
  refine ⟨?_, ?_, ?_⟩
  · exact (c1_getDistanceBand_first_match (800 : Rat) [bandA, bandB] [bandA] []
      bandB bandA).2.1 rfl (by decide) (by decide)
  · exact (c1_getDistanceBand_first_match (750 : Rat) [] [] [] bandA
      bandA).2.2.2.1 rfl (by decide)
  · have := (c1_getDistanceBand_first_match (750 : Rat) [] [] [] bandA
      bandB).2.2.2.2
    simpa [bandB] using this

/-- Environment whose distance function is the constant `d`, no region
membership, empty `REGION_DISPLAY`. -/
def envConst (d : Rat) : Env :=
  { calcDistance := fun _ _ => d,
    isInRegion := fun _ _ => false,
    regionDisplay := [] }

/-- Fixture airport: Sydney. -/
def apSYD : Airport := { iata := "SYD", city := "Sydney", country := "Australia" }

/-- Fixture airport: Melbourne. -/
def apMEL : Airport := { iata := "MEL", city := "Melbourne", country := "Australia" }

/-- Fixture airport: Los Angeles. -/
def apLAX : Airport :=
  { iata := "LAX", city := "Los Angeles", country := "United States" }

/-- C4: `IntraCountryRule.applies` is false whenever either endpoint's
country differs from the configured country (whatever the distance
function says), and when both endpoints' countries equal the configured
country it returns exactly the wrapped `DistanceRule.applies`. -/
theorem c4_intraCountry_applies (env : Env) (country : String)
    (bands : List DistanceBand) (seg : Segment) (cat : String) :
    (seg.fromAirport.country ≠ country ∨ seg.toAirport.country ≠ country →
       IntraCountryRule.applies env country bands seg cat = false)
  ∧ (seg.fromAirport.country = country → seg.toAirport.country = country →
       IntraCountryRule.applies env country bands seg cat =
         DistanceRule.applies env bands seg cat) := by
  constructor
  · intro h; simp [IntraCountryRule.applies, h]
  · intro h1 h2; simp [IntraCountryRule.applies, h1, h2]

/-- Witness for C4: Sydney–Los Angeles fails the `Australia` country
check whatever the distance; Sydney–Melbourne reduces to the inner
distance rule (which here accepts category `Y` at distance 500). -/
theorem c4_intraCountry_applies_witness :
    IntraCountryRule.applies (envConst 500) "Australia" [bandA, bandB]
      { fromAirport := apSYD, toAirport := apLAX } "Y" = false
  ∧ IntraCountryRule.applies (envConst 500) "Australia" [bandA, bandB]
      { fromAirport := apSYD, toAirport := apMEL } "Y" =
      DistanceRule.applies (envConst 500) [bandA, bandB]
        { fromAirport := apSYD, toAirport := apMEL } "Y" :=
  ⟨(c4_intraCountry_applies (envConst 500) "Australia" [bandA, bandB]
      { fromAirport := apSYD, toAirport := apLAX } "Y").1 (Or.inr (by decide)),
   (c4_intraCountry_applies (envConst 500) "Australia" [bandA, bandB]
      { fromAirport := apSYD, toAirport := apMEL } "Y").2 (by decide) (by decide)⟩

/-- Counterexample to C3: with configured country `"australia"`, a
segment whose airports' country fields equal it up to letter case only
(`"Australia"`) is rejected, while the exact-case segment at the same
distance is accepted: `IntraCountryRule.applies` compares countries
case-sensitively. -/
theorem c3_lowercase_counterexample :
    IntraCountryRule.applies (envConst 500) "australia" [bandA, bandB]
      { fromAirport := apSYD, toAirport := apMEL } "Y" = false
  ∧ IntraCountryRule.applies (envConst 500) "australia" [bandA, bandB]
      { fromAirport := { apSYD with country := "australia" },
        toAirport := { apMEL with country := "australia" } } "Y" = true := by
  constructor <;> decide

/-- C3 (amended): `GeographicalRule` lower-cases city, country and IATA
values before comparing, so two airports equal up to letter case resolve
identically as origin and as destination; `IntraCountryRule`, however,
compares its configured country case-sensitively, so a segment whose
endpoint country differs from the configured country in any way —
including letter case only — makes `applies` false. -/
theorem c3_lowercase_amended (env : Env) (cfg : RuleConfig) (a b : Airport)
    (country : String) (bands : List DistanceBand) (seg : Segment)
    (cat : String) :
    (jsToLower a.iata = jsToLower b.iata →
     jsToLower a.city = jsToLower b.city →
     jsToLower a.country = jsToLower b.country →
       GeographicalRule.getOrigin env cfg a = GeographicalRule.getOrigin env cfg b
     ∧ GeographicalRule.getDestination env cfg a =
         GeographicalRule.getDestination env cfg b)
  ∧ (seg.fromAirport.country ≠ country ∨ seg.toAirport.country ≠ country →
       IntraCountryRule.applies env country bands seg cat = false) := by
  constructor
  · intro h1 h2 h3
    constructor
    · simp only [GeographicalRule.getOrigin, h1, h2, h3]
    · simp only [GeographicalRule.getDestination, h1, h2, h3]
  · intro h; simp [IntraCountryRule.applies, h]

/-- Fixture rule config: origin city set `{sydney}`, destination city
table with one `melbourne` entry carrying category `Y`. -/
def cfgSydMel : RuleConfig :=
  { origin := { city := some ["sydney"], country := none, region := none },
    destination :=
      { city := some [("melbourne",
          [("Y", { qantasPoints := 100, statusCredits := 10 })])],
        country := none, region := none } }

/-- Witness for C3 (amended): `SYD` in original case and fully
lower-cased resolves identically under `cfgSydMel`, and the mixed-case
Sydney–Melbourne segment is rejected by an `"australia"`-configured
`IntraCountryRule`. -/
theorem c3_lowercase_amended_witness :
    (GeographicalRule.getOrigin (envConst 500) cfgSydMel apSYD =
       GeographicalRule.getOrigin (envConst 500) cfgSydMel
         { iata := "syd", city := "sydney", country := "australia" }
     ∧ GeographicalRule.getDestination (envConst 500) cfgSydMel apSYD =
         GeographicalRule.getDestination (envConst 500) cfgSydMel
           { iata := "syd", city := "sydney", country := "australia" })
  ∧ IntraCountryRule.applies (envConst 500) "australia" [bandA, bandB]
      { fromAirport := apSYD, toAirport := apMEL } "Y" = false :=
  ⟨(c3_lowercase_amended (envConst 500) cfgSydMel apSYD
      { iata := "syd", city := "sydney", country := "australia" }
      "australia" [bandA, bandB]
      { fromAirport := apSYD, toAirport := apMEL } "Y").1
      (by decide) (by decide) (by decide),
   (c3_lowercase_amended (envConst 500) cfgSydMel apSYD
      { iata := "syd", city := "sydney", country := "australia" }
      "australia" [bandA, bandB]
      { fromAirport := apSYD, toAirport := apMEL } "Y").2
      (Or.inl (by decide))⟩

/-- The notes fragment `DistanceRule.calculate` builds for the matched
band: `"using band min - max"` when bounded, `"using band min and over"`
when unbounded. -/
def notesForBand (b : DistanceBand) : String :=
  match b.maxDistance with
  | some m => "using band " ++ toString b.minDistance ++ " - " ++ toString m
  | none => "using band " ++ toString b.minDistance ++ " and over"

/-- C5: when the computed distance falls in no band,
`DistanceRule.calculate` fails with an error naming the rule and yields
no result; when a band is found (and carries the requested category, the
in-contract case), it returns that band's per-category points and credits
with notes describing the distance and the matched band. -/
theorem c5_distanceRule_calculate (env : Env) (name ruleUrl : String)
    (bands : List DistanceBand) (seg : Segment) (cat : String) :
    (getDistanceBand bands (env.calcDistance seg.fromAirport seg.toAirport) =
        none →
       DistanceRule.calculate env name ruleUrl bands seg cat =
         .error ("No applicable distance band to calculate with for rule: " ++
           name))
  ∧ (∀ b e,
       getDistanceBand bands (env.calcDistance seg.fromAirport seg.toAirport) =
           some b →
       alookup b.earnings cat = some e →
       DistanceRule.calculate env name ruleUrl bands seg cat =
         .ok { rule := name, ruleUrl := ruleUrl, fareEarnCategory := cat,
               notes := "Distance calculated to " ++
                 toString (env.calcDistance seg.fromAirport seg.toAirport) ++
                 " miles, " ++ notesForBand b,
               qantasPoints := e.qantasPoints,
               statusCredits := e.statusCredits }) := by
  constructor
  · intro h
    simp [DistanceRule.calculate, h]
  · intro b e hb he
    simp [DistanceRule.calculate, hb, he, notesForBand]

/-- Witness for C5: with constant distance 500, an empty band list makes
`calculate` throw the rule-naming error, and `[bandA]` (which holds
category `Y`) makes it return bandA's earnings with the distance/band
notes. -/
theorem c5_distanceRule_calculate_witness :
    DistanceRule.calculate (envConst 500) "ruleX" "urlX" []
      { fromAirport := apSYD, toAirport := apMEL } "Y" =
      .error ("No applicable distance band to calculate with for rule: " ++
        "ruleX")
  ∧ DistanceRule.calculate (envConst 500) "ruleX" "urlX" [bandA]
      { fromAirport := apSYD, toAirport := apMEL } "Y" =
      .ok { rule := "ruleX", ruleUrl := "urlX", fareEarnCategory := "Y",
            notes := "Distance calculated to " ++
              toString ((envConst 500).calcDistance apSYD apMEL) ++
              " miles, " ++ notesForBand bandA,
            qantasPoints := 100, statusCredits := 10 } :=
  ⟨(c5_distanceRule_calculate (envConst 500) "ruleX" "urlX" []
      { fromAirport := apSYD, toAirport := apMEL } "Y").1 (by decide),
   (c5_distanceRule_calculate (envConst 500) "ruleX" "urlX" [bandA]
      { fromAirport := apSYD, toAirport := apMEL } "Y").2 bandA
     { qantasPoints := 100, statusCredits := 10 } (by decide) (by decide)⟩

/-- The reversed segment: `fromAirport` and `toAirport` swapped. -/
def Segment.reverse (seg : Segment) : Segment :=
  { fromAirport := seg.toAirport, toAirport := seg.fromAirport }

/-- Fixture config in which both orientations of `segAB` resolve: origin
matches both cities, and the destination table holds both cities but with
different category sets. -/
def cfgBothWays : RuleConfig :=
  { origin := { city := some ["alphaville", "betatown"], country := none,
                region := none },
    destination :=
      { city := some
          [("alphaville", [("Y", { qantasPoints := 100, statusCredits := 10 })]),
           ("betatown", [("J", { qantasPoints := 100, statusCredits := 10 })])],
        country := none, region := none } }

/-- Fixture airport in Alphaville. -/
def apALP : Airport := { iata := "ALP", city := "Alphaville", country := "X" }

/-- Fixture airport in Betatown. -/
def apBET : Airport := { iata := "BET", city := "Betatown", country := "X" }

/-- Counterexample to C2: under `cfgBothWays` both orientations of the
Alphaville→Betatown segment resolve, so the forward segment looks up the
`betatown` destination entry (no category `Y`) while the reversed segment
looks up `alphaville` (which has `Y`): `applies` differs between the
segment and its reverse. -/
theorem c2_direction_counterexample :
    GeographicalRule.applies (envConst 500) cfgBothWays
      { fromAirport := apALP, toAirport := apBET } "Y" = false
  ∧ GeographicalRule.applies (envConst 500) cfgBothWays
      (Segment.reverse { fromAirport := apALP, toAirport := apBET }) "Y" =
      true := by
  constructor <;> decide

/-- C2 (amended): `GeographicalRule` matching is direction-agnostic
whenever the two orientations of the segment do not both fully resolve:
under that proviso `applies` returns the same boolean for the segment and
its reverse, and when they apply, `calculate` returns identical results
(same matched origin/destination, hence same notes). When both
orientations resolve, the two directions may look up different
destination entries and disagree. -/
theorem c2_direction_amended (env : Env) (cfg : RuleConfig) (seg : Segment)
    (cat name ruleUrl : String)
    (h : ¬(((GeographicalRule.getOrigin env cfg seg.fromAirport).isSome ∧
            (GeographicalRule.getDestination env cfg seg.toAirport).isSome) ∧
           ((GeographicalRule.getOrigin env cfg seg.toAirport).isSome ∧
            (GeographicalRule.getDestination env cfg seg.fromAirport).isSome))) :
    GeographicalRule.applies env cfg seg cat =
      GeographicalRule.applies env cfg seg.reverse cat
  ∧ (GeographicalRule.applies env cfg seg cat = true →
       GeographicalRule.calculate env name ruleUrl cfg seg cat =
         GeographicalRule.calculate env name ruleUrl cfg seg.reverse cat) := by
  have key :
      GeographicalRule.getOriginAndDestination env cfg seg =
        GeographicalRule.getOriginAndDestination env cfg seg.reverse
    ∨ (GeographicalRule.applies env cfg seg cat = false ∧
       GeographicalRule.applies env cfg seg.reverse cat = false) := by
    rcases hoF : GeographicalRule.getOrigin env cfg seg.fromAirport with _ | oF <;>
    rcases hdT : GeographicalRule.getDestination env cfg seg.toAirport with _ | dT <;>
    rcases hoT : GeographicalRule.getOrigin env cfg seg.toAirport with _ | oT <;>
    rcases hdF : GeographicalRule.getDestination env cfg seg.fromAirport with _ | dF <;>
    simp [hoF, hdT, hoT, hdF] at h ⊢ <;>
    simp [GeographicalRule.getOriginAndDestination, GeographicalRule.applies,
      GeographicalRule.appliesChecked, Segment.reverse, hoF, hdT, hoT, hdF]
  rcases key with hres | ⟨hfalse1, hfalse2⟩
  · constructor
    · unfold GeographicalRule.applies GeographicalRule.appliesChecked
      rw [hres]
    · intro _
      unfold GeographicalRule.calculate
      rw [hres]
  · refine ⟨by rw [hfalse1, hfalse2], fun htrue => absurd htrue (by simp [hfalse1])⟩

/-- Witness for C2 (amended): under `cfgSydMel` only the forward
orientation of Sydney→Melbourne resolves (Melbourne is no origin), so
`applies` agrees between the segment and its reverse and `calculate`
coincides on both. -/
theorem c2_direction_amended_witness :
    GeographicalRule.applies (envConst 500) cfgSydMel
      { fromAirport := apSYD, toAirport := apMEL } "Y" =
      GeographicalRule.applies (envConst 500) cfgSydMel
        (Segment.reverse { fromAirport := apSYD, toAirport := apMEL }) "Y"
  ∧ GeographicalRule.calculate (envConst 500) "ruleG" "urlG" cfgSydMel
      { fromAirport := apSYD, toAirport := apMEL } "Y" =
      GeographicalRule.calculate (envConst 500) "ruleG" "urlG" cfgSydMel
        (Segment.reverse { fromAirport := apSYD, toAirport := apMEL }) "Y" :=
  ⟨(c2_direction_amended (envConst 500) cfgSydMel
      { fromAirport := apSYD, toAirport := apMEL } "Y" "ruleG" "urlG"
      (by decide)).1,
   (c2_direction_amended (envConst 500) cfgSydMel
      { fromAirport := apSYD, toAirport := apMEL } "Y" "ruleG" "urlG"
      (by decide)).2 (by decide)⟩

theorem alookup_isSome_of_mem_keys {α : Type} (l : List (String × α))
    (k : String) (h : k ∈ l.map Prod.fst) : (alookup l k).isSome := by
  induction l with
  | nil => simp at h
  | cons hd tl ih =>
      rw [List.map_cons, List.mem_cons] at h
      by_cases hk : hd.1 = k
      · simp [alookup, hk]
      · rcases h with h | h
        · exact absurd h.symm hk
        · simpa [alookup, hk] using ih h

theorem getOrigin_type (env : Env) (cfg : RuleConfig) (a : Airport)
    (loc : Location) (h : GeographicalRule.getOrigin env cfg a = some loc) :
    loc.type = "city" ∨ loc.type = "country" ∨ loc.type = "region" := by
  unfold GeographicalRule.getOrigin at h
  split at h
  · injection h with h2; subst h2; exact Or.inl rfl
  · split at h
    · injection h with h2; subst h2; exact Or.inr (Or.inl rfl)
    · rcases hr : cfg.origin.region with _ | rs <;> rw [hr] at h
      · simp at h
      · obtain ⟨r, _, hloc⟩ := Option.map_eq_some'.mp h
        subst hloc; exact Or.inr (Or.inr rfl)

theorem getDestination_key (env : Env) (cfg : RuleConfig) (a : Airport)
    (dst : Location) (h : GeographicalRule.getDestination env cfg a = some dst) :
    (dst.type = "city" ∨ dst.type = "country" ∨ dst.type = "region")
  ∧ ∃ table, destTable cfg dst.type = some table ∧
      (alookup table dst.value).isSome := by
  unfold GeographicalRule.getDestination at h
  split at h
  · next hc =>
      injection h with h2; subst h2
      rcases ht : cfg.destination.city with _ | table <;> rw [ht] at hc
      · simp at hc
      · exact ⟨Or.inl rfl, table, by simp [destTable, ht], hc⟩
  · split at h
    · next hc =>
        injection h with h2; subst h2
        rcases ht : cfg.destination.country with _ | table <;> rw [ht] at hc
        · simp at hc
        · exact ⟨Or.inr (Or.inl rfl), table, by simp [destTable, ht], hc⟩
    · rcases hr : cfg.destination.region with _ | rt <;> rw [hr] at h
      · simp at h
      · obtain ⟨r, hfind, hloc⟩ := Option.map_eq_some'.mp h
        subst hloc
        refine ⟨Or.inr (Or.inr rfl), rt, by simp [destTable, hr], ?_⟩
        exact alookup_isSome_of_mem_keys rt r (List.mem_of_find?_eq_some hfind)

theorem getOriginAndDestination_sources (env : Env) (cfg : RuleConfig)
    (seg : Segment) :
    ((GeographicalRule.getOriginAndDestination env cfg seg).1 =
        GeographicalRule.getOrigin env cfg seg.fromAirport ∨
     (GeographicalRule.getOriginAndDestination env cfg seg).1 =
        GeographicalRule.getOrigin env cfg seg.toAirport)
  ∧ ((GeographicalRule.getOriginAndDestination env cfg seg).2 =
        GeographicalRule.getDestination env cfg seg.toAirport ∨
     (GeographicalRule.getOriginAndDestination env cfg seg).2 =
        GeographicalRule.getDestination env cfg seg.fromAirport) := by
  unfold GeographicalRule.getOriginAndDestination
  dsimp only
  split <;> simp

theorem buildNotesInner_ok (env : Env) (loc : Location)
    (h : loc.type = "city" ∨ loc.type = "country" ∨ loc.type = "region") :
    ∃ s, GeographicalRule.buildCalculationNotesInner env loc = .ok s := by
  unfold GeographicalRule.buildCalculationNotesInner
  rcases h with h | h | h <;> simp [h]

/-- C6: every in-contract `GeographicalRule.calculate` call succeeds and
its notes equal `"<origin-rendering> to <destination-rendering>"`; a city
or country location renders as the bare matched value, a region renders
via the `REGION_DISPLAY` table with fallback to the raw region key, and a
location of any unrecognized type fails with an error naming the type. -/
theorem c6_geographical_notes (env : Env) (name ruleUrl : String)
    (cfg : RuleConfig) (seg : Segment) (cat : String) (loc : Location)
    (disp : String) :
    (GeographicalRule.applies env cfg seg cat = true →
       ∃ origin destination r ro rd,
         GeographicalRule.getOriginAndDestination env cfg seg =
           (some origin, some destination)
       ∧ GeographicalRule.buildCalculationNotesInner env origin = .ok ro
       ∧ GeographicalRule.buildCalculationNotesInner env destination = .ok rd
       ∧ GeographicalRule.calculate env name ruleUrl cfg seg cat = .ok r
       ∧ r.notes = ro ++ " to " ++ rd)
  ∧ (loc.type = "city" ∨ loc.type = "country" →
       GeographicalRule.buildCalculationNotesInner env loc = .ok loc.value)
  ∧ (loc.type = "region" → alookup env.regionDisplay loc.value = some disp →
       disp ≠ "" → GeographicalRule.buildCalculationNotesInner env loc = .ok disp)
  ∧ (loc.type = "region" → alookup env.regionDisplay loc.value = none →
       GeographicalRule.buildCalculationNotesInner env loc = .ok loc.value)
  ∧ (loc.type ≠ "airport" → loc.type ≠ "city" → loc.type ≠ "country" →
       loc.type ≠ "region" →
       GeographicalRule.buildCalculationNotesInner env loc =
         .error ("Cannot create calcluation notes for unknown type " ++
           loc.type)) := by
  refine ⟨fun happ => ?_, fun h => ?_, fun h h2 h3 => ?_, fun h h2 => ?_,
    fun h1 h2 h3 h4 => ?_⟩
  · unfold GeographicalRule.applies GeographicalRule.appliesChecked at happ
    rcases hres : GeographicalRule.getOriginAndDestination env cfg seg with ⟨o1, d1⟩
    rw [hres] at happ
    rcases o1 with _ | origin
    · simp at happ
    rcases d1 with _ | destination
    · simp at happ
    dsimp only at happ
    rcases hdt : destTable cfg destination.type with _ | table <;> rw [hdt] at happ
    · simp at happ
    dsimp only at happ
    rcases hlk : alookup table destination.value with _ | earnings <;>
      rw [hlk] at happ
    · simp at happ
    simp only [Option.getD_some] at happ
    obtain ⟨e, he⟩ := Option.isSome_iff_exists.mp happ
    have hsrc := getOriginAndDestination_sources env cfg seg
    rw [hres] at hsrc
    have hor : origin.type = "city" ∨ origin.type = "country" ∨
        origin.type = "region" := by
      rcases hsrc.1 with h1 | h1 <;>
        exact getOrigin_type env cfg _ origin h1.symm
    have hde : destination.type = "city" ∨ destination.type = "country" ∨
        destination.type = "region" := by
      rcases hsrc.2 with h1 | h1 <;>
        exact (getDestination_key env cfg _ destination h1.symm).1
    obtain ⟨ro, hro⟩ := buildNotesInner_ok env origin hor
    obtain ⟨rd, hrd⟩ := buildNotesInner_ok env destination hde
    refine ⟨origin, destination,
      { rule := name, ruleUrl := ruleUrl, fareEarnCategory := cat,
        notes := ro ++ " to " ++ rd, qantasPoints := e.qantasPoints,
        statusCredits := e.statusCredits }, ro, rd, rfl, hro, hrd, ?_, rfl⟩
    unfold GeographicalRule.calculate GeographicalRule.buildCalculationNotes
    rw [hres]
    simp [hdt, hlk, he, hro, hrd]
  · unfold GeographicalRule.buildCalculationNotesInner
    rcases h with h | h <;> simp [h]
  · unfold GeographicalRule.buildCalculationNotesInner
    simp [h, h2, GeographicalRule.jsStrOr, h3]
  · unfold GeographicalRule.buildCalculationNotesInner
    simp [h, h2, GeographicalRule.jsStrOr]
  · unfold GeographicalRule.buildCalculationNotesInner
    simp [h1, h2, h3, h4]

/-- Witness for C6: the in-contract Sydney→Melbourne calculation under
`cfgSydMel` produces `"sydney to melbourne"` notes, and an unknown
location type `continent` makes the renderer fail naming it. -/
theorem c6_geographical_notes_witness :
    (∃ origin destination r ro rd,
       GeographicalRule.getOriginAndDestination (envConst 500) cfgSydMel
           { fromAirport := apSYD, toAirport := apMEL } =
         (some origin, some destination)
     ∧ GeographicalRule.buildCalculationNotesInner (envConst 500) origin = .ok ro
     ∧ GeographicalRule.buildCalculationNotesInner (envConst 500) destination =
         .ok rd
     ∧ GeographicalRule.calculate (envConst 500) "ruleG" "urlG" cfgSydMel
         { fromAirport := apSYD, toAirport := apMEL } "Y" = .ok r
     ∧ r.notes = ro ++ " to " ++ rd)
  ∧ GeographicalRule.buildCalculationNotesInner (envConst 500)
      { type := "continent", value := "oceania" } =
      .error ("Cannot create calcluation notes for unknown type " ++
        "continent") :=
  ⟨(c6_geographical_notes (envConst 500) "ruleG" "urlG" cfgSydMel
      { fromAirport := apSYD, toAirport := apMEL } "Y"
      { type := "continent", value := "oceania" } "x").1 (by decide),
   (c6_geographical_notes (envConst 500) "ruleG" "urlG" cfgSydMel
      { fromAirport := apSYD, toAirport := apMEL } "Y"
      { type := "continent", value := "oceania" } "x").2.2.2.2
      (by decide) (by decide) (by decide) (by decide)⟩

theorem geographical_appliesChecked_total (env : Env) (cfg : RuleConfig)
    (seg : Segment) (cat : String) :
    GeographicalRule.appliesChecked env cfg seg cat =
      some (GeographicalRule.applies env cfg seg cat) := by
  suffices h : (GeographicalRule.appliesChecked env cfg seg cat).isSome by
    obtain ⟨b, hb⟩ := Option.isSome_iff_exists.mp h
    rw [hb, GeographicalRule.applies, hb]; rfl
  unfold GeographicalRule.appliesChecked
  rcases hres : GeographicalRule.getOriginAndDestination env cfg seg with ⟨o1, d1⟩
  have hsrc := getOriginAndDestination_sources env cfg seg
  rw [hres] at hsrc
  rcases o1 with _ | origin
  · simp
  rcases d1 with _ | destination
  · simp
  have hkey : ∃ table, destTable cfg destination.type = some table ∧
      (alookup table destination.value).isSome := by
    rcases hsrc.2 with h1 | h1 <;>
      exact (getDestination_key env cfg _ destination h1.symm).2
  obtain ⟨table, hdt, hlk⟩ := hkey
  obtain ⟨earnings, he⟩ := Option.isSome_iff_exists.mp hlk
  simp [hdt, he]

/-- C7: for every rule variant, well-formed segment and category,
`applies` returns a boolean with no property read ever failing (the
instrumented `appliesChecked` never reports a TypeError), and when the
rule's data is absent — no matching band, unresolved origin/destination,
or category missing from the table — it returns `false`. -/
theorem c7_applies_never_throws (env : Env) (rule : Rule) (seg : Segment)
    (cat : String) (bands : List DistanceBand)
    (table : List (String × FareClassEarning)) (cfg : RuleConfig) :
    Rule.appliesChecked env rule seg cat = some (Rule.applies env rule seg cat)
  ∧ (getDistanceBand bands (env.calcDistance seg.fromAirport seg.toAirport) =
        none → DistanceRule.applies env bands seg cat = false)
  ∧ (alookup table cat = none → FareClassRule.applies table cat = false)
  ∧ ((GeographicalRule.getOriginAndDestination env cfg seg).1 = none ∨
     (GeographicalRule.getOriginAndDestination env cfg seg).2 = none →
       GeographicalRule.applies env cfg seg cat = false) := by
  refine ⟨?_, fun h => ?_, fun h => ?_, fun h => ?_⟩
  · cases rule with
    | distance name ruleUrl bands2 => rfl
    | intraCountry name ruleUrl country bands2 => rfl
    | fareClass name ruleUrl table2 => rfl
    | geographical name ruleUrl cfg2 =>
        exact geographical_appliesChecked_total env cfg2 seg cat
  · simp [DistanceRule.applies, h]
  · simp [FareClassRule.applies, h]
  · unfold GeographicalRule.applies GeographicalRule.appliesChecked
    rcases hres : GeographicalRule.getOriginAndDestination env cfg seg with ⟨o1, d1⟩
    rw [hres] at h
    rcases o1 with _ | origin
    · simp
    rcases d1 with _ | destination
    · simp
    simp at h

/-- Witness for C7: a concrete geographical rule's checked `applies`
reports its boolean; an empty band list, an empty fare-class table, and
an unresolvable segment all yield `false`. -/
theorem c7_applies_never_throws_witness :
    Rule.appliesChecked (envConst 500)
      (.geographical "g" "u" cfgSydMel)
      { fromAirport := apSYD, toAirport := apMEL } "Y" =
      some (Rule.applies (envConst 500) (.geographical "g" "u" cfgSydMel)
        { fromAirport := apSYD, toAirport := apMEL } "Y")
  ∧ DistanceRule.applies (envConst 500) []
      { fromAirport := apSYD, toAirport := apMEL } "Y" = false
  ∧ FareClassRule.applies [] "Y" = false
  ∧ GeographicalRule.applies (envConst 500) cfgSydMel
      { fromAirport := apLAX, toAirport := apLAX } "Y" = false :=
  ⟨(c7_applies_never_throws (envConst 500) (.geographical "g" "u" cfgSydMel)
      { fromAirport := apSYD, toAirport := apMEL } "Y" [] [] cfgSydMel).1,
   (c7_applies_never_throws (envConst 500) (.geographical "g" "u" cfgSydMel)
      { fromAirport := apSYD, toAirport := apMEL } "Y" [] [] cfgSydMel).2.1 rfl,
   (c7_applies_never_throws (envConst 500) (.geographical "g" "u" cfgSydMel)
      { fromAirport := apSYD, toAirport := apMEL } "Y" [] [] cfgSydMel).2.2.1 rfl,
   (c7_applies_never_throws (envConst 500) (.geographical "g" "u" cfgSydMel)
      { fromAirport := apLAX, toAirport := apLAX } "Y" [] [] cfgSydMel).2.2.2
     (Or.inl (by decide))⟩

theorem alookup_objSet_self (l : List (String × QantasEarnings)) (k : String)
    (v : QantasEarnings) : alookup (objSet l k v) k = some v := by
  induction l with
  | nil => simp [objSet, alookup]
  | cons hd tl ih =>
      by_cases hk : hd.1 = k
      · simp [objSet, hk, alookup]
      · simp [objSet, hk, alookup, ih]

theorem alookup_objSet_ne (l : List (String × QantasEarnings))
    (k k2 : String) (v : QantasEarnings) (h : k2 ≠ k) :
    alookup (objSet l k v) k2 = alookup l k2 := by
  induction l with
  | nil => simp [objSet, alookup, Ne.symm h]
  | cons hd tl ih =>
      by_cases hk : hd.1 = k
      · subst hk
        simp [objSet, alookup, Ne.symm h]
      · simp [objSet, hk, alookup, ih]

theorem buildRates_untouched (pts cds fcs : List String) (i : Nat)
    (acc : List (String × QantasEarnings)) (fc : String) (h : fc ∉ fcs) :
    alookup (buildRates pts cds fcs i acc) fc = alookup acc fc := by
  induction fcs generalizing i acc with
  | nil => rfl
  | cons a t ih =>
      rw [List.mem_cons, not_or] at h
      simp only [buildRates]
      rw [ih _ _ h.2]
      exact alookup_objSet_ne acc a fc _ h.1

theorem buildRates_lookup_pos (pts cds : List String) (fc : String)
    (post : List String) (hpost : fc ∉ post) :
    ∀ (pre : List String) (i : Nat) (acc : List (String × QantasEarnings)),
      fc ∉ pre →
      alookup (buildRates pts cds (pre ++ fc :: post) i acc) fc =
        some { qantasPoints := tokenValue (pts.get? (i + pre.length)),
               statusCredits := tokenValue (cds.get? (i + pre.length)) } := by
  intro pre
  induction pre with
  | nil =>
      intro i acc _
      simp only [List.nil_append, buildRates]
      rw [buildRates_untouched _ _ _ _ _ _ hpost, alookup_objSet_self]
      simp
  | cons a t ih =>
      intro i acc hpre
      rw [List.mem_cons, not_or] at hpre
      simp only [List.cons_append, buildRates, List.append_eq]
      rw [ih _ _ hpre.2]
      have h1 : i + 1 + t.length = i + (a :: t).length := by
        simp only [List.length_cons]; omega
      rw [h1]

theorem buildRates_isSome_iff (pts cds fcs : List String) (i : Nat)
    (acc : List (String × QantasEarnings)) (l : String) :
    (alookup (buildRates pts cds fcs i acc) l).isSome ↔
      l ∈ fcs ∨ (alookup acc l).isSome := by
  induction fcs generalizing i acc with
  | nil => simp [buildRates]
  | cons a t ih =>
      simp only [buildRates]
      rw [ih]
      by_cases hl : l = a
      · subst hl; simp [alookup_objSet_self]
      · rw [alookup_objSet_ne acc a l _ hl]
        simp [List.mem_cons, hl]

/-- C8: `parseEarningRates` trims, collapses internal whitespace, strips
commas from the points string only, splits on single spaces and maps
token position `i` to fare-class label `i`; in particular
`("1,000 500", "10 5", ["Y","J"])` yields `Y ↦ (1000, 10)` and
`J ↦ (500, 5)`. -/
theorem c8_parseEarningRates_positional (ps cs : String)
    (pre post : List String) (fc : String) :
    parseEarningRates "1,000 500" "10 5" ["Y", "J"] =
      [("Y", { qantasPoints := 1000, statusCredits := 10 }),
       ("J", { qantasPoints := 500, statusCredits := 5 })]
  ∧ (fc ∉ pre → fc ∉ post →
       alookup (parseEarningRates ps cs (pre ++ fc :: post)) fc =
         some { qantasPoints := tokenValue ((pointsTokens ps).get? pre.length),
                statusCredits :=
                  tokenValue ((creditsTokens cs).get? pre.length) }) := by
  refine ⟨by decide, fun hpre hpost => ?_⟩
  unfold parseEarningRates
  rw [buildRates_lookup_pos (pointsTokens ps) (creditsTokens cs) fc post hpost pre 0 [] hpre]
  simp

/-- Witness for C8: label `J` sits at position 1 after `Y`, so it takes
token 1 of each tokenized string. -/
theorem c8_parseEarningRates_positional_witness :
    alookup (parseEarningRates "1,000 500" "10 5" (["Y"] ++ "J" :: [])) "J" =
      some { qantasPoints :=
               tokenValue ((pointsTokens "1,000 500").get? ["Y"].length),
             statusCredits :=
               tokenValue ((creditsTokens "10 5").get? ["Y"].length) } :=
  (c8_parseEarningRates_positional "1,000 500" "10 5" ["Y"] [] "J").2
    (by decide) (by decide)

/-- C9: `parseEarningRates` is lenient and total: the result has an entry
exactly for each requested label, a points token that fails integer
parsing contributes `0`, positions beyond both token lists default to
`(0, 0)`, and in particular `("abc 500", "10 5", ["Y","J"])` gives
`Y ↦ (0, 10)` and `J ↦ (500, 5)`. -/
theorem c9_parseEarningRates_lenient (ps cs : String) (fcs : List String)
    (l : String) (pre post : List String) (fc t : String) :
    ((alookup (parseEarningRates ps cs fcs) l).isSome ↔ l ∈ fcs)
  ∧ (fc ∉ pre → fc ∉ post → (pointsTokens ps).get? pre.length = some t →
       jsParseInt t = none →
       alookup (parseEarningRates ps cs (pre ++ fc :: post)) fc =
         some { qantasPoints := 0,
                statusCredits :=
                  tokenValue ((creditsTokens cs).get? pre.length) })
  ∧ (fc ∉ pre → fc ∉ post → (pointsTokens ps).length ≤ pre.length →
       (creditsTokens cs).length ≤ pre.length →
       alookup (parseEarningRates ps cs (pre ++ fc :: post)) fc =
         some { qantasPoints := 0, statusCredits := 0 })
  ∧ parseEarningRates "abc 500" "10 5" ["Y", "J"] =
      [("Y", { qantasPoints := 0, statusCredits := 10 }),
       ("J", { qantasPoints := 500, statusCredits := 5 })] := by
  refine ⟨?_, fun hpre hpost ht hnan => ?_, fun hpre hpost hp hc => ?_, by decide⟩
  · unfold parseEarningRates
    rw [buildRates_isSome_iff]
    simp [alookup]
  · unfold parseEarningRates
    rw [buildRates_lookup_pos (pointsTokens ps) (creditsTokens cs) fc post hpost pre 0 [] hpre]
    simp only [Nat.zero_add, ht, tokenValue, hnan, Option.getD_none]
  · unfold parseEarningRates
    rw [buildRates_lookup_pos (pointsTokens ps) (creditsTokens cs) fc post hpost pre 0 [] hpre]
    rw [List.get?_eq_none.mpr (by omega), List.get?_eq_none.mpr (by omega)]
    rfl

/-- Witness for C9: the unparseable token `abc` yields 0 points for `Y`,
and a label (`J`) beyond both token lists of one-token strings defaults
to `(0, 0)`. -/
theorem c9_parseEarningRates_lenient_witness :
    alookup (parseEarningRates "abc 500" "10 5" ([] ++ "Y" :: ["J"])) "Y" =
      some { qantasPoints := 0,
             statusCredits := tokenValue ((creditsTokens "10 5").get? 0) }
  ∧ alookup (parseEarningRates "5" "7" (["Y"] ++ "J" :: [])) "J" =
      some { qantasPoints := 0, statusCredits := 0 } :=
  ⟨(c9_parseEarningRates_lenient "abc 500" "10 5" ["Y", "J"] "Y" [] ["J"] "Y"
      "abc").2.1 (by decide) (by decide) (by decide) (by decide),
   (c9_parseEarningRates_lenient "5" "7" ["Y", "J"] "J" ["Y"] [] "J" "x").2.2.1
     (by decide) (by decide) (by decide) (by decide)⟩

/-- Decimal value of a digit run, folded exactly as `parseRadix 10`
folds it. -/
def decValue (ds : List Char) : Nat :=
  ds.foldl (fun acc c => acc * 10 + (digitVal 10 c).getD 0) 0

/-- Whether a list of characters begins with `x`/`X` immediately followed
by a hexadecimal digit — the shape that makes `parseInt` switch to base
16 after a leading `0`. -/
def startsHexTail (rest : List Char) : Bool :=
  match rest with
  | x :: c :: _ => (x == 'x' || x == 'X') && (hexVal c).isSome
  | _ => false

theorem takeWhile_append_eq (p : Char → Bool) (l1 l2 : List Char)
    (h1 : ∀ c ∈ l1, p c = true)
    (h2 : ∀ c, l2.head? = some c → p c = false) :
    (l1 ++ l2).takeWhile p = l1 := by
  induction l1 with
  | nil =>
      cases l2 with
      | nil => rfl
      | cons c t => simp [List.takeWhile_cons, h2 c rfl]
  | cons a t ih =>
      rw [List.cons_append, List.takeWhile_cons, h1 a (by simp)]
      rw [ih (fun c hc => h1 c (by simp [hc]))]
      simp

theorem digit_not_special (c : Char) (h : (digitVal 10 c).isSome = true) :
    isJsWs c = false ∧ c ≠ '-' ∧ c ≠ '+' ∧ c ≠ 'x' ∧ c ≠ 'X' := by
  refine ⟨?_, fun hc => ?_, fun hc => ?_, fun hc => ?_, fun hc => ?_⟩
  · rw [Bool.eq_false_iff]
    intro hws
    simp [isJsWs] at hws
    rcases hws with rfl | rfl | rfl | rfl | rfl | rfl <;>
      exact absurd h (by decide)
  all_goals subst hc; exact absurd h (by decide)

theorem parseRadix10_of_prefix (ds rest : List Char) (hne : ds ≠ [])
    (hds : ∀ c ∈ ds, (digitVal 10 c).isSome = true)
    (hrest : ∀ c, rest.head? = some c → (digitVal 10 c).isSome = false) :
    parseRadix 10 (ds ++ rest) = some (decValue ds) := by
  unfold parseRadix
  rw [takeWhile_append_eq _ ds rest hds hrest]
  rcases ds with _ | ⟨d0, ds1⟩
  · exact absurd rfl hne
  · rfl

/-- Counterexample to C10: the credits token `0x10` starts with the digit
prefix `0` followed by non-digit characters, yet `parseEarningRates`
assigns 16 (JS `parseInt` hex-prefix detection), not the prefix value 0. -/
theorem c10_hex_prefix_counterexample :
    "0x10".data.takeWhile (fun c => (digitVal 10 c).isSome) = ['0']
  ∧ decValue ['0'] = 0
  ∧ parseEarningRates "10 5" "0x10 5" ["Y", "J"] =
      [("Y", { qantasPoints := 10, statusCredits := 16 }),
       ("J", { qantasPoints := 5, statusCredits := 5 })]
  ∧ (16 : Int) ≠ 0 :=
  ⟨by decide, by decide, by decide, by decide⟩

/-- C10 (amended): a credits token made of a nonempty decimal-digit run
followed by non-digit characters is assigned the integer value of that
digit prefix — unless the token is `0` followed by `x`/`X` and a hex
digit, where `parseInt`'s hexadecimal prefix detection takes over; in
particular `1,000` gives 1 and `500x` gives 500. -/
theorem c10_credits_digit_prefix_amended (ds rest : List Char) :
    (ds ≠ [] → (∀ c ∈ ds, (digitVal 10 c).isSome = true) →
     (∀ c, rest.head? = some c → (digitVal 10 c).isSome = false) →
     ¬(ds = ['0'] ∧ startsHexTail rest = true) →
       tokenValue (some (String.mk (ds ++ rest))) = (decValue ds : Int))
  ∧ parseEarningRates "10 5" "1,000 500x" ["Y", "J"] =
      [("Y", { qantasPoints := 10, statusCredits := 1 }),
       ("J", { qantasPoints := 5, statusCredits := 500 })] := by
  refine ⟨fun hne hds hrest hhex => ?_, by decide⟩
  rcases ds with _ | ⟨d0, ds1⟩
  · exact absurd rfl hne
  have hd0 : (digitVal 10 d0).isSome = true := hds d0 (by simp)
  obtain ⟨hws0, hminus, hplus, _, _⟩ := digit_not_special d0 hd0
  have hjl : jsParseInt (String.mk ((d0 :: ds1) ++ rest)) =
      (parseUnsigned (d0 :: (ds1 ++ rest))).map (fun n => (n : Int)) := by
    unfold jsParseInt
    have h1 : (String.mk ((d0 :: ds1) ++ rest)).data.dropWhile isJsWs =
        d0 :: (ds1 ++ rest) := by
      show ((d0 :: ds1) ++ rest).dropWhile isJsWs = d0 :: (ds1 ++ rest)
      rw [List.cons_append, List.dropWhile_cons, hws0]
      simp
    rw [h1]
    simp [hminus, hplus]
  rw [tokenValue, hjl]
  rcases ds1 with _ | ⟨d1, ds2⟩
  · rcases hr : rest with _ | ⟨r0, tail⟩
    · subst hr
      have hp := parseRadix10_of_prefix [d0] [] (by simp) hds (by simp)
      rw [List.append_nil] at hp
      show ((parseUnsigned (d0 :: [])).map fun n => (n : Int)).getD 0 = _
      have hpu : parseUnsigned [d0] = parseRadix 10 [d0] := rfl
      rw [hpu, hp]
      rfl
    · subst hr
      have hr0 : (digitVal 10 r0).isSome = false := hrest r0 rfl
      simp only [List.nil_append]
      by_cases hc : d0 = '0' ∧ (r0 = 'x' ∨ r0 = 'X')
      · have hd00 : d0 = '0' := hc.1
        subst hd00
        have hsh : startsHexTail (r0 :: tail) = false := by
          rcases Bool.eq_false_or_eq_true (startsHexTail (r0 :: tail)) with h | h
          · exact absurd ⟨rfl, h⟩ hhex
          · exact h
        have hpu : parseUnsigned ('0' :: r0 :: tail) = parseRadix 16 tail := by
          show (if ('0' : Char) = '0' ∧ (r0 = 'x' ∨ r0 = 'X') then
              parseRadix 16 tail else parseRadix 10 ('0' :: r0 :: tail)) =
            parseRadix 16 tail
          exact if_pos hc
        rw [hpu]
        have hnone : parseRadix 16 tail = none := by
          rcases tail with _ | ⟨t0, t1⟩
          · rfl
          · have hx : (hexVal t0).isSome = false := by
              rcases hc.2 with rfl | rfl
              · simpa [startsHexTail] using hsh
              · simpa [startsHexTail] using hsh
            unfold parseRadix
            rw [List.takeWhile_cons]
            have hdg : digitVal 16 t0 = none := by
              rcases hhx : hexVal t0 with _ | v
              · simp [digitVal, hhx]
              · rw [hhx] at hx; simp at hx
            simp [hdg]
        rw [hnone]
        rfl
      · have hpu : parseUnsigned (d0 :: r0 :: tail) =
            parseRadix 10 (d0 :: r0 :: tail) := by
          show (if d0 = '0' ∧ (r0 = 'x' ∨ r0 = 'X') then
              parseRadix 16 tail else parseRadix 10 (d0 :: r0 :: tail)) =
            parseRadix 10 (d0 :: r0 :: tail)
          exact if_neg hc
        rw [hpu]
        have hp := parseRadix10_of_prefix [d0] (r0 :: tail) (by simp) hds
          (fun c hc2 => by cases hc2; exact hr0)
        rw [List.singleton_append] at hp
        rw [hp]
        rfl
  · have hd1 : (digitVal 10 d1).isSome = true := hds d1 (by simp)
    obtain ⟨_, _, _, hx1, hX1⟩ := digit_not_special d1 hd1
    simp only [List.cons_append]
    have hpu : parseUnsigned (d0 :: d1 :: (ds2 ++ rest)) =
        parseRadix 10 (d0 :: d1 :: (ds2 ++ rest)) := by
      show (if d0 = '0' ∧ (d1 = 'x' ∨ d1 = 'X') then
          parseRadix 16 (ds2 ++ rest)
        else parseRadix 10 (d0 :: d1 :: (ds2 ++ rest))) =
        parseRadix 10 (d0 :: d1 :: (ds2 ++ rest))
      exact if_neg (fun hand => hand.2.elim hx1 hX1)
    rw [hpu]
    have hp := parseRadix10_of_prefix (d0 :: d1 :: ds2) rest (by simp) hds hrest
    simp only [List.cons_append] at hp
    rw [hp]
    rfl

/-- Witness for C10 (amended): the token `500x` (digits `500` then a
non-digit) is assigned 500. -/
theorem c10_credits_digit_prefix_amended_witness :
    tokenValue (some (String.mk (['5', '0', '0'] ++ ['x']))) =
      (decValue ['5', '0', '0'] : Int) :=
  (c10_credits_digit_prefix_amended ['5', '0', '0'] ['x']).1
    (by decide) (by decide) (by decide) (by decide)

end QantasCalc
